import Mathlib

/-!
Verification of the MoodSense emotion fusion and data integration engine.

Shallow embedding of `src/emotion_detector.py` (class `EmotionDetector`) and
`src/data_integrator.py` (class `DataIntegrator`).  Python floats are embedded
as rationals (ℚ); the bounded `collections.deque(maxlen=…)` is embedded as a
list together with an explicit capacity-respecting append; the pandas
history DataFrame is embedded as a list of `HistoryPoint` rows.
-/

set_option autoImplicit false

namespace MoodSense

/-- An emotion observation as handed to `EmotionDetector._integrate_emotions`:
an emotion label together with confidence, valence and arousal. -/
structure Observation where
  label : String
  confidence : ℚ
  valence : ℚ
  arousal : ℚ
  deriving DecidableEq, Repr

/-- The three observation sources accepted by `_integrate_emotions`. -/
inductive Source where
  | face
  | voice
  | behavior
  deriving DecidableEq, Repr

/-- The confidence-based weight computed in `_integrate_emotions`:
`0.5*confidence` for face, `0.3*confidence` for voice, `0.2*confidence`
for behavior. -/
def sourceWeight : Source → ℚ → ℚ
  | .face, c => 1/2 * c
  | .voice, c => 3/10 * c
  | .behavior, c => 1/5 * c

/-- State of an `EmotionDetector`: the three parallel rolling histories
(`emotion_history`, `valence_history`, `arousal_history`, each a
`deque(maxlen=emotion_memory)`), plus the last raw label per source. -/
structure EmotionDetector where
  emotion_memory_size : ℕ
  emotion_history : List String
  valence_history : List ℚ
  arousal_history : List ℚ
  face_emotion : String
  voice_emotion : String
  behavior_emotion : String
  deriving DecidableEq, Repr

/-- The freshly constructed detector of `EmotionDetector.__init__`
(default `emotion_memory=10`): empty histories, all raw labels neutral. -/
def initDetector (emotion_memory : ℕ) : EmotionDetector :=
  { emotion_memory_size := emotion_memory
    emotion_history := []
    valence_history := []
    arousal_history := []
    face_emotion := "neutral"
    voice_emotion := "neutral"
    behavior_emotion := "neutral" }

/-- Append to a `deque(maxlen=cap)`: the new element goes to the right and
elements are dropped from the left so that at most `cap` remain. -/
def dequeAppend {α : Type} (cap : ℕ) (xs : List α) (x : α) : List α :=
  let ys := xs ++ [x]
  ys.drop (ys.length - cap)

/-- `EmotionDetector._integrate_emotions`: computes the source weight from the
confidence; if the weight is below `0.1` the state is returned unchanged,
otherwise label, valence and arousal are appended to the three rolling
histories together. -/
def integrate_emotions (s : EmotionDetector) (src : Source) (o : Observation) :
    EmotionDetector :=
  let weight := sourceWeight src o.confidence
  if weight < 1/10 then s
  else
    { s with
      emotion_history := dequeAppend s.emotion_memory_size s.emotion_history o.label
      valence_history := dequeAppend s.emotion_memory_size s.valence_history o.valence
      arousal_history := dequeAppend s.emotion_memory_size s.arousal_history o.arousal }

/-- `EmotionDetector.update_face_emotion`, from the point where the face
analysis backend has produced a dominant label with confidence, valence and
arousal: it first stores the raw label in `face_emotion`, then calls
`_integrate_emotions("face", …)`. -/
def update_face_emotion (s : EmotionDetector) (o : Observation) : EmotionDetector :=
  integrate_emotions { s with face_emotion := o.label } .face o

/-- The audio feature mapping consumed by `update_voice_emotion`
(`volume`, `pitch`, `is_speaking`). -/
structure AudioFeatures where
  volume : ℚ
  pitch : ℚ
  is_speaking : Bool
  deriving DecidableEq, Repr

/-- The rule table of `EmotionDetector.update_voice_emotion` producing an
observation from audio features.  Checked in source order: loud high-pitched
speech is surprise (pitch > 300) or angry, loud mid-pitch is happy, quiet
low-pitch is sad, other speech is neutral with arousal 0.3; not speaking is
neutral with confidence 0.5 and zero valence/arousal. -/
def analyze_voice (f : AudioFeatures) : Observation :=
  if f.is_speaking then
    if f.volume > 7/10 ∧ f.pitch > 200 then
      if f.pitch > 300 then
        { label := "surprise", confidence := min (7/10) f.volume
          valence := 3/10, arousal := 8/10 }
      else
        { label := "angry", confidence := min (7/10) f.volume
          valence := -(8/10), arousal := 8/10 }
    else if f.volume > 6/10 ∧ 150 < f.pitch ∧ f.pitch < 250 then
      { label := "happy", confidence := min (13/20) f.volume
        valence := 7/10, arousal := 6/10 }
    else if f.volume < 3/10 ∧ f.pitch < 150 then
      { label := "sad", confidence := 3/5, valence := -(3/5), arousal := 1/5 }
    else
      { label := "neutral", confidence := 1/2, valence := 0, arousal := 3/10 }
  else
    { label := "neutral", confidence := 1/2, valence := 0, arousal := 0 }

/-- `EmotionDetector.update_voice_emotion`: classifies the audio features,
stores the raw label in `voice_emotion`, then calls
`_integrate_emotions("voice", …)`. -/
def update_voice_emotion (s : EmotionDetector) (f : AudioFeatures) : EmotionDetector :=
  let o := analyze_voice f
  integrate_emotions { s with voice_emotion := o.label } .voice o

/-- The rule table of `EmotionDetector.update_behavior_emotion`.  Arousal is
always `motion_level * 0.5`; the label/valence/confidence come from the first
matching rule, falling back to the positivity index
`focus_level*0.6 - typing_errors*0.4`. -/
def analyze_behavior (motion_level typing_speed typing_errors focus_level : ℚ) :
    Observation :=
  let arousal := motion_level * (1/2)
  if motion_level > 3/5 ∧ typing_speed > 300 ∧ typing_errors < 1/5 then
    { label := "happy", confidence := 13/20, valence := 7/10, arousal := arousal }
  else if motion_level > 3/5 ∧ typing_speed > 300 ∧ typing_errors > 3/10 then
    { label := "angry", confidence := 3/5, valence := -(3/5), arousal := arousal }
  else if motion_level < 1/5 ∧ typing_speed < 150 then
    { label := "sad", confidence := 11/20, valence := -(2/5), arousal := arousal }
  else if 3/10 < motion_level ∧ motion_level < 1/2 ∧ focus_level > 7/10 then
    { label := "neutral", confidence := 7/10, valence := 1/5, arousal := arousal }
  else
    let positivity := focus_level * (3/5) - typing_errors * (2/5)
    if positivity > 3/10 then
      { label := "happy", confidence := 1/2, valence := positivity, arousal := arousal }
    else if positivity < -(1/5) then
      { label := "sad", confidence := 1/2, valence := positivity, arousal := arousal }
    else
      { label := "neutral", confidence := 3/5, valence := positivity, arousal := arousal }

/-- `EmotionDetector.update_behavior_emotion`: classifies the behavior
features, stores the raw label in `behavior_emotion`, then calls
`_integrate_emotions("behavior", …)`. -/
def update_behavior_emotion (s : EmotionDetector)
    (motion_level typing_speed typing_errors focus_level : ℚ) : EmotionDetector :=
  let o := analyze_behavior motion_level typing_speed typing_errors focus_level
  integrate_emotions { s with behavior_emotion := o.label } .behavior o

/-- One step of building the Python dict `emotion_counts`: increment the entry
for `e` if present, else insert `(e, 1)` at the end (dict insertion order). -/
def bumpCount : List (String × ℕ) → String → List (String × ℕ)
  | [], e => [(e, 1)]
  | (k, n) :: rest, e =>
    if k = e then (k, n + 1) :: rest else (k, n) :: bumpCount rest e

/-- The `emotion_counts` dict of `get_analysis_results`, as an association
list in key-insertion order (= order of first occurrence in the history). -/
def emotionCounts (h : List String) : List (String × ℕ) :=
  h.foldl bumpCount []

/-- Lookup in an association list (first entry with the given key). -/
def lookupCount : List (String × ℕ) → String → Option ℕ
  | [], _ => none
  | (k, n) :: rest, l => if k = l then some n else lookupCount rest l

/-- One step of Python's `max(emotion_counts, key=emotion_counts.get)`:
the running best is replaced only by a strictly larger count. -/
def maxStep (best kv : String × ℕ) : String × ℕ :=
  if kv.2 > best.2 then kv else best

/-- Python's `max(emotion_counts, key=emotion_counts.get)` over the counts in
dict order: the first entry attaining the maximal count. -/
def firstMax : List (String × ℕ) → Option (String × ℕ)
  | [] => none
  | kv :: rest => some (rest.foldl maxStep kv)

/-- The fused snapshot returned by `EmotionDetector.get_analysis_results`. -/
structure AnalysisResult where
  emotion : String
  confidence : ℚ
  intensity : ℚ
  valence : ℚ
  arousal : ℚ
  face_emotion : String
  voice_emotion : String
  behavior_emotion : String
  emotion_distribution : List (String × ℕ)
  deriving DecidableEq, Repr

/-- `EmotionDetector.get_analysis_results`: averages the valence and arousal
histories (0 when empty), counts the labels, picks the most frequent label
(first maximum in dict order; "neutral" with confidence 0 when the history is
empty), and sets `intensity = |avg_valence| * avg_arousal`. -/
def get_analysis_results (s : EmotionDetector) : AnalysisResult :=
  let avg_valence : ℚ :=
    if s.valence_history = [] then 0
    else s.valence_history.sum / s.valence_history.length
  let avg_arousal : ℚ :=
    if s.arousal_history = [] then 0
    else s.arousal_history.sum / s.arousal_history.length
  let counts := emotionCounts s.emotion_history
  let dom : String × ℚ :=
    match firstMax counts with
    | some (k, n) => (k, (n : ℚ) / s.emotion_history.length)
    | none => ("neutral", 0)
  { emotion := dom.1
    confidence := dom.2
    intensity := |avg_valence| * avg_arousal
    valence := avg_valence
    arousal := avg_arousal
    face_emotion := s.face_emotion
    voice_emotion := s.voice_emotion
    behavior_emotion := s.behavior_emotion
    emotion_distribution := counts }

/-- The four composite scores computed by `DataIntegrator._calculate_scores`. -/
structure Scores where
  environment_score : ℚ
  productivity_score : ℚ
  mood_score : ℚ
  wellbeing_score : ℚ
  deriving DecidableEq, Repr

/-- `DataIntegrator._calculate_scores` on the key metrics extracted at the
start of the method: brightness/noise give the environment score, focus and
saturating typing speed the productivity score, valence passes through as
mood, and valence positivity with activity moderation give wellbeing. -/
def calculate_scores (brightness noise_level motion_level typing_speed
    focus_level valence : ℚ) : Scores :=
  let brightness_score := 1 - 2 * |brightness - 1/2|
  let noise_score := 1 - noise_level
  let environment_score := 3/5 * brightness_score + 2/5 * noise_score
  let norm_typing := min 1 (typing_speed / 300)
  let productivity_score := 7/10 * focus_level + 3/10 * norm_typing
  let mood_score := valence
  let emotion_positivity := (valence + 1) / 2
  let activity_score := 1 - 2 * |motion_level - 1/2|
  let wellbeing_score := 3/5 * emotion_positivity + 2/5 * activity_score
  { environment_score := environment_score
    productivity_score := productivity_score
    mood_score := mood_score
    wellbeing_score := wellbeing_score }

/-- One row of the integrator's history DataFrame, as built by
`DataIntegrator._append_to_history` (the `datetime` column is subsumed by the
numeric timestamp). -/
structure HistoryPoint where
  timestamp : ℚ
  brightness : ℚ
  noise_level : ℚ
  motion_level : ℚ
  emotion : String
  valence : ℚ
  arousal : ℚ
  typing_speed : ℚ
  focus_level : ℚ
  productivity_score : ℚ
  wellbeing_score : ℚ
  mood_score : ℚ
  environment_score : ℚ
  deriving DecidableEq, Repr

/-- `DataIntegrator._append_to_history`: concatenate the new row, then, when
the length exceeds `history_length`, keep only the newest `history_length`
rows (`iloc[-history_length:]`). -/
def append_to_history (history_length : ℕ) (history : List HistoryPoint)
    (p : HistoryPoint) : List HistoryPoint :=
  let h := history ++ [p]
  if history_length < h.length then h.drop (h.length - history_length) else h

/-- A sequence of fold operations on the emotion detector: any interleaving
of the three update operations with any inputs. -/
inductive FoldOp where
  | face (o : Observation)
  | voice (f : AudioFeatures)
  | behavior (motion_level typing_speed typing_errors focus_level : ℚ)

/-- Apply one fold operation to a detector state. -/
def applyFold (s : EmotionDetector) : FoldOp → EmotionDetector
  | .face o => update_face_emotion s o
  | .voice f => update_voice_emotion s f
  | .behavior m ts te fl => update_behavior_emotion s m ts te fl

/-- Run a sequence of fold operations left to right. -/
def runFolds (s : EmotionDetector) (ops : List FoldOp) : EmotionDetector :=
  ops.foldl applyFold s

/-- The rolling-history invariant: the label history fits in the capacity and
the valence and arousal histories have the same length as the label history. -/
def goodState (s : EmotionDetector) : Prop :=
  s.emotion_history.length ≤ s.emotion_memory_size ∧
  s.valence_history.length = s.emotion_history.length ∧
  s.arousal_history.length = s.emotion_history.length

/-! ## Helper lemmas -/

theorem length_dequeAppend {α : Type} (cap : ℕ) (xs : List α) (x : α) :
    (dequeAppend cap xs x).length = min (xs.length + 1) cap := by
  simp only [dequeAppend, List.length_drop, List.length_append, List.length_singleton]
  omega

theorem getLast?_dequeAppend {α : Type} (cap : ℕ) (xs : List α) (x : α)
    (hcap : 1 ≤ cap) :
    (dequeAppend cap xs x).getLast? = some x := by
  have h : (xs ++ [x]).length - cap ≤ xs.length := by
    simp only [List.length_append, List.length_singleton]; omega
  simp only [dequeAppend]
  rw [List.drop_append_of_le_length h, List.getLast?_concat]

theorem analyze_voice_confidence_ge (f : AudioFeatures) :
    1/2 ≤ (analyze_voice f).confidence := by
  by_cases hs : f.is_speaking = true
  · simp only [analyze_voice, if_pos hs]
    by_cases h1 : f.volume > 7/10 ∧ f.pitch > 200
    · rw [if_pos h1]
      by_cases h2 : f.pitch > 300
      · rw [if_pos h2]; exact le_min (by norm_num) (by linarith [h1.1])
      · rw [if_neg h2]; exact le_min (by norm_num) (by linarith [h1.1])
    · rw [if_neg h1]
      by_cases h3 : f.volume > 6/10 ∧ 150 < f.pitch ∧ f.pitch < 250
      · rw [if_pos h3]; exact le_min (by norm_num) (by linarith [h3.1])
      · rw [if_neg h3]
        by_cases h4 : f.volume < 3/10 ∧ f.pitch < 150
        · rw [if_pos h4]; exact (by norm_num : (1 : ℚ)/2 ≤ 3/5)
        · rw [if_neg h4]
  · simp only [analyze_voice, if_neg hs]; exact le_refl _

theorem analyze_behavior_confidence_ge (m ts te fl : ℚ) :
    1/2 ≤ (analyze_behavior m ts te fl).confidence := by
  simp only [analyze_behavior]
  by_cases h1 : m > 3/5 ∧ ts > 300 ∧ te < 1/5
  · rw [if_pos h1]; exact (by norm_num : (1 : ℚ)/2 ≤ 13/20)
  · rw [if_neg h1]
    by_cases h2 : m > 3/5 ∧ ts > 300 ∧ te > 3/10
    · rw [if_pos h2]; exact (by norm_num : (1 : ℚ)/2 ≤ 3/5)
    · rw [if_neg h2]
      by_cases h3 : m < 1/5 ∧ ts < 150
      · rw [if_pos h3]; exact (by norm_num : (1 : ℚ)/2 ≤ 11/20)
      · rw [if_neg h3]
        by_cases h4 : 3/10 < m ∧ m < 1/2 ∧ fl > 7/10
        · rw [if_pos h4]; exact (by norm_num : (1 : ℚ)/2 ≤ 7/10)
        · rw [if_neg h4]
          by_cases h5 : fl * (3/5) - te * (2/5) > 3/10
          · rw [if_pos h5]
          · rw [if_neg h5]
            by_cases h6 : fl * (3/5) - te * (2/5) < -(1/5)
            · rw [if_pos h6]
            · rw [if_neg h6]; exact (by norm_num : (1 : ℚ)/2 ≤ 3/5)

theorem voice_weight_not_subthreshold (f : AudioFeatures) :
    ¬ sourceWeight Source.voice (analyze_voice f).confidence < 1/10 := by
  have h := analyze_voice_confidence_ge f
  simp only [sourceWeight, not_lt]
  linarith

theorem behavior_weight_not_subthreshold (m ts te fl : ℚ) :
    ¬ sourceWeight Source.behavior (analyze_behavior m ts te fl).confidence < 1/10 := by
  have h := analyze_behavior_confidence_ge m ts te fl
  simp only [sourceWeight, not_lt]
  linarith

theorem update_face_emotion_subthreshold (s : EmotionDetector) (o : Observation)
    (h : sourceWeight Source.face o.confidence < 1/10) :
    update_face_emotion s o = { s with face_emotion := o.label } := by
  simp only [update_face_emotion, integrate_emotions, if_pos h]

theorem goodState_integrate (s : EmotionDetector) (src : Source) (o : Observation)
    (hs : goodState s) : goodState (integrate_emotions s src o) := by
  simp only [integrate_emotions]
  split
  · exact hs
  · obtain ⟨h1, h2, h3⟩ := hs
    refine ⟨?_, ?_, ?_⟩ <;>
      simp only [length_dequeAppend] <;> omega

theorem memory_size_integrate (s : EmotionDetector) (src : Source) (o : Observation) :
    (integrate_emotions s src o).emotion_memory_size = s.emotion_memory_size := by
  simp only [integrate_emotions]
  split <;> rfl

theorem goodState_applyFold (s : EmotionDetector) (op : FoldOp) (hs : goodState s) :
    goodState (applyFold s op) := by
  cases op with
  | face o => exact goodState_integrate _ _ _ hs
  | voice f => exact goodState_integrate _ _ _ hs
  | behavior m ts te fl => exact goodState_integrate _ _ _ hs

theorem memory_size_applyFold (s : EmotionDetector) (op : FoldOp) :
    (applyFold s op).emotion_memory_size = s.emotion_memory_size := by
  cases op with
  | face o => exact memory_size_integrate _ _ _
  | voice f => exact memory_size_integrate _ _ _
  | behavior m ts te fl => exact memory_size_integrate _ _ _

/-! ## Theorems -/

/-- C6: the voice fuse operation on `volume=0.8, pitch=320, is_speaking=True`
yields label "surprise" with valence 0.3, arousal 0.8 and confidence
`min(0.7, 0.8) = 0.7`. -/
theorem fuse_voice_scenario_A :
    analyze_voice { volume := 4/5, pitch := 320, is_speaking := true } =
      { label := "surprise", confidence := 7/10, valence := 3/10, arousal := 8/10 } ∧
    min ((7 : ℚ)/10) (4/5) = 7/10 := by
  constructor
  · have h1 : ((4 : ℚ)/5 > 7/10 ∧ (320 : ℚ) > 200) := by norm_num
    have h2 : ((320 : ℚ) > 300) := by norm_num
    simp only [analyze_voice, if_pos h1, if_pos h2, if_true]
    norm_num
  · norm_num

/-- C7: `environment_score = 0.6*(1 - 2*|brightness - 0.5|) + 0.4*(1 - noise_level)`
for all inputs; in particular it is 1 at brightness 0.5 / noise 0 and 0 at
brightness 1 / noise 1. -/
theorem environment_score_spec (b n m ts fl v : ℚ) :
    (calculate_scores b n m ts fl v).environment_score =
      3/5 * (1 - 2 * |b - 1/2|) + 2/5 * (1 - n) ∧
    (calculate_scores (1/2) 0 m ts fl v).environment_score = 1 ∧
    (calculate_scores 1 1 m ts fl v).environment_score = 0 := by
  refine ⟨rfl, ?_, ?_⟩ <;> norm_num [calculate_scores, abs_of_pos]

/-- C2 counterexample: with fused valence 0 and motion_level 0.5 the
wellbeing score is exactly 0.7, at distance 0.2 from the claimed midpoint
0.5 — not approximately 0.5. -/
theorem wellbeing_midpoint_counterexample :
    (calculate_scores (1/2) 0 (1/2) 0 (1/2) 0).wellbeing_score = 7/10 ∧
    |(calculate_scores (1/2) 0 (1/2) 0 (1/2) 0).wellbeing_score - 1/2| = 1/5 := by
  constructor <;> · simp [calculate_scores]; norm_num

/-- C2 amended: for valence 0 and motion_level 0.5 (and any other inputs) the
wellbeing score on an integration tick is exactly
`0.6*((0+1)/2) + 0.4*(1 - 2*|0.5-0.5|) = 0.7`, the valence term sitting at its
midpoint while the activity term is maximal. -/
theorem wellbeing_at_neutral_inputs (b n ts fl : ℚ) :
    (calculate_scores b n (1/2) ts fl 0).wellbeing_score = 7/10 := by
  simp [calculate_scores]; norm_num

/-- C5: for brightness, noise, motion, focus in [0,1], typing speed ≥ 0 and
valence in [-1,1], the environment, productivity and wellbeing scores lie in
[0,1] and the mood score lies in [-1,1]. -/
theorem scores_in_range (b n m ts fl v : ℚ)
    (hb0 : 0 ≤ b) (hb1 : b ≤ 1) (hn0 : 0 ≤ n) (hn1 : n ≤ 1)
    (hm0 : 0 ≤ m) (hm1 : m ≤ 1) (hts : 0 ≤ ts)
    (hf0 : 0 ≤ fl) (hf1 : fl ≤ 1) (hv0 : -1 ≤ v) (hv1 : v ≤ 1) :
    (0 ≤ (calculate_scores b n m ts fl v).environment_score ∧
      (calculate_scores b n m ts fl v).environment_score ≤ 1) ∧
    (0 ≤ (calculate_scores b n m ts fl v).productivity_score ∧
      (calculate_scores b n m ts fl v).productivity_score ≤ 1) ∧
    (0 ≤ (calculate_scores b n m ts fl v).wellbeing_score ∧
      (calculate_scores b n m ts fl v).wellbeing_score ≤ 1) ∧
    (-1 ≤ (calculate_scores b n m ts fl v).mood_score ∧
      (calculate_scores b n m ts fl v).mood_score ≤ 1) := by
  have habs_b : |b - 1/2| ≤ 1/2 := abs_le.mpr ⟨by linarith, by linarith⟩
  have habs_b0 : (0 : ℚ) ≤ |b - 1/2| := abs_nonneg _
  have habs_m : |m - 1/2| ≤ 1/2 := abs_le.mpr ⟨by linarith, by linarith⟩
  have habs_m0 : (0 : ℚ) ≤ |m - 1/2| := abs_nonneg _
  have hmin0 : (0 : ℚ) ≤ min 1 (ts / 300) := le_min (by norm_num) (by positivity)
  have hmin1 : min (1 : ℚ) (ts / 300) ≤ 1 := min_le_left _ _
  simp only [calculate_scores]
  refine ⟨⟨?_, ?_⟩, ⟨?_, ?_⟩, ⟨?_, ?_⟩, ⟨?_, ?_⟩⟩ <;> linarith

/-- C8: appending one point to a history already at capacity `N ≥ 1` keeps
exactly `N` points: the oldest point is dropped and the newest `N` are
retained in order. -/
theorem append_to_history_at_capacity (N : ℕ) (history : List HistoryPoint)
    (p : HistoryPoint) (hlen : history.length = N) (hN : 0 < N) :
    (append_to_history N history p).length = N ∧
    append_to_history N history p = history.drop 1 ++ [p] := by
  subst hlen
  have hcond : history.length < (history ++ [p]).length := by simp
  have hdrop : (history ++ [p]).length - history.length = 1 := by simp
  unfold append_to_history
  rw [if_pos hcond, hdrop, List.drop_append_of_le_length (by omega)]
  constructor
  · simp; omega
  · rfl

/-- Sample history row used to instantiate history theorems. -/
def samplePoint (t : ℚ) : HistoryPoint :=
  { timestamp := t, brightness := 1/2, noise_level := 0, motion_level := 0
    emotion := "neutral", valence := 0, arousal := 0, typing_speed := 0
    focus_level := 1/2, productivity_score := 1/2, wellbeing_score := 1/2
    mood_score := 0, environment_score := 1/2 }

/-- Witness for C8: a capacity-2 history of two points, after one more append,
holds exactly the newest two points. -/
theorem append_to_history_at_capacity_witness :
    (append_to_history 2 [samplePoint 0, samplePoint 1] (samplePoint 2)).length = 2 ∧
    append_to_history 2 [samplePoint 0, samplePoint 1] (samplePoint 2) =
      [samplePoint 0, samplePoint 1].drop 1 ++ [samplePoint 2] :=
  append_to_history_at_capacity 2 [samplePoint 0, samplePoint 1] (samplePoint 2)
    rfl (by norm_num)

/-- C10: when motion > 0.6, typing speed > 300 and the typing error rate lies
in the gap [0.2, 0.3] between the happy and angry rule rows, the behavior fuse
operation falls through to the positivity fallback
(`positivity = focus*0.6 - errors*0.4`; happy above 0.3, sad below -0.2, else
neutral, valence = positivity, arousal = motion*0.5); at motion 0.7, speed
350, errors 0.25, focus 0.9 this yields "happy" with valence 0.44 = 11/25 and
confidence 0.5 — not the happy table row's valence 0.7. -/
theorem behavior_rule_gap_positivity_fallback (m ts te fl : ℚ)
    (hm : m > 3/5) (_hts : ts > 300) (hte1 : 1/5 ≤ te) (hte2 : te ≤ 3/10) :
    analyze_behavior m ts te fl =
      (if fl * (3/5) - te * (2/5) > 3/10 then
        { label := "happy", confidence := 1/2
          valence := fl * (3/5) - te * (2/5), arousal := m * (1/2) }
      else if fl * (3/5) - te * (2/5) < -(1/5) then
        { label := "sad", confidence := 1/2
          valence := fl * (3/5) - te * (2/5), arousal := m * (1/2) }
      else
        { label := "neutral", confidence := 3/5
          valence := fl * (3/5) - te * (2/5), arousal := m * (1/2) }) ∧
    analyze_behavior (7/10) 350 (1/4) (9/10) =
      { label := "happy", confidence := 1/2, valence := 11/25, arousal := 7/20 } ∧
    (analyze_behavior (7/10) 350 (1/4) (9/10)).valence ≠ 7/10 := by
  refine ⟨?_, ?_, ?_⟩
  · have h1 : ¬ (m > 3/5 ∧ ts > 300 ∧ te < 1/5) := by rintro ⟨-, -, h⟩; linarith
    have h2 : ¬ (m > 3/5 ∧ ts > 300 ∧ te > 3/10) := by rintro ⟨-, -, h⟩; linarith
    have h3 : ¬ (m < 1/5 ∧ ts < 150) := by rintro ⟨h, -⟩; linarith
    have h4 : ¬ (3/10 < m ∧ m < 1/2 ∧ fl > 7/10) := by rintro ⟨-, h, -⟩; linarith
    simp only [analyze_behavior, if_neg h1, if_neg h2, if_neg h3, if_neg h4]
  · have h1 : ¬ ((7 : ℚ)/10 > 3/5 ∧ (350 : ℚ) > 300 ∧ (1 : ℚ)/4 < 1/5) := by norm_num
    have h2 : ¬ ((7 : ℚ)/10 > 3/5 ∧ (350 : ℚ) > 300 ∧ (1 : ℚ)/4 > 3/10) := by norm_num
    have h3 : ¬ ((7 : ℚ)/10 < 1/5 ∧ (350 : ℚ) < 150) := by norm_num
    have h4 : ¬ ((3 : ℚ)/10 < 7/10 ∧ (7 : ℚ)/10 < 1/2 ∧ (9 : ℚ)/10 > 7/10) := by norm_num
    have h5 : ((9 : ℚ)/10 * (3/5) - (1/4) * (2/5) > 3/10) := by norm_num
    simp only [analyze_behavior, if_neg h1, if_neg h2, if_neg h3, if_neg h4, if_pos h5]
    norm_num
  · have h1 : ¬ ((7 : ℚ)/10 > 3/5 ∧ (350 : ℚ) > 300 ∧ (1 : ℚ)/4 < 1/5) := by norm_num
    have h2 : ¬ ((7 : ℚ)/10 > 3/5 ∧ (350 : ℚ) > 300 ∧ (1 : ℚ)/4 > 3/10) := by norm_num
    have h3 : ¬ ((7 : ℚ)/10 < 1/5 ∧ (350 : ℚ) < 150) := by norm_num
    have h4 : ¬ ((3 : ℚ)/10 < 7/10 ∧ (7 : ℚ)/10 < 1/2 ∧ (9 : ℚ)/10 > 7/10) := by norm_num
    have h5 : ((9 : ℚ)/10 * (3/5) - (1/4) * (2/5) > 3/10) := by norm_num
    simp only [analyze_behavior, if_neg h1, if_neg h2, if_neg h3, if_neg h4, if_pos h5]
    norm_num

/-- Witness for C10: the fallback instance at motion 0.7, speed 350, errors
0.25, focus 0.9. -/
theorem behavior_rule_gap_positivity_fallback_witness :
    analyze_behavior (7/10) 350 (1/4) (9/10) =
      { label := "happy", confidence := 1/2, valence := 11/25, arousal := 7/20 } :=
  (behavior_rule_gap_positivity_fallback (7/10) 350 (1/4) (9/10)
    (by norm_num) (by norm_num) (by norm_num) (by norm_num)).2.1

/-- Witness for C5: all four scores are in range at brightness 0.5, noise 0,
motion 0.5, typing speed 100, focus 0.5, valence 0. -/
theorem scores_in_range_witness :
    (0 ≤ (calculate_scores (1/2) 0 (1/2) 100 (1/2) 0).environment_score ∧
      (calculate_scores (1/2) 0 (1/2) 100 (1/2) 0).environment_score ≤ 1) ∧
    (0 ≤ (calculate_scores (1/2) 0 (1/2) 100 (1/2) 0).productivity_score ∧
      (calculate_scores (1/2) 0 (1/2) 100 (1/2) 0).productivity_score ≤ 1) ∧
    (0 ≤ (calculate_scores (1/2) 0 (1/2) 100 (1/2) 0).wellbeing_score ∧
      (calculate_scores (1/2) 0 (1/2) 100 (1/2) 0).wellbeing_score ≤ 1) ∧
    (-1 ≤ (calculate_scores (1/2) 0 (1/2) 100 (1/2) 0).mood_score ∧
      (calculate_scores (1/2) 0 (1/2) 100 (1/2) 0).mood_score ≤ 1) :=
  scores_in_range (1/2) 0 (1/2) 100 (1/2) 0
    (by norm_num) (by norm_num) (by norm_num) (by norm_num) (by norm_num)
    (by norm_num) (by norm_num) (by norm_num) (by norm_num) (by norm_num)
    (by norm_num)

/-- C1 counterexample: a face observation with confidence 0.1 has source
weight 0.05 < 0.1, yet processing it through `update_face_emotion` changes
the output of `get_analysis_results` (the `face_emotion` last-raw-label field
is overwritten before the weight check). -/
theorem subthreshold_face_changes_snapshot :
    sourceWeight Source.face ((1 : ℚ)/10) < 1/10 ∧
    get_analysis_results (update_face_emotion (initDetector 10)
        { label := "happy", confidence := 1/10, valence := 1/2, arousal := 1/2 }) ≠
      get_analysis_results (initDetector 10) := by
  constructor
  · norm_num [sourceWeight]
  · intro heq
    have h : update_face_emotion (initDetector 10)
        { label := "happy", confidence := 1/10, valence := 1/2, arousal := 1/2 } =
        { initDetector 10 with face_emotion := "happy" } :=
      update_face_emotion_subthreshold _ _ (by norm_num [sourceWeight])
    rw [h] at heq
    have h2 := congrArg AnalysisResult.face_emotion heq
    simp only [get_analysis_results] at h2
    exact absurd h2 (by decide)

/-- C1 amended: a sub-threshold face observation leaves every history-derived
field of `get_analysis_results` unchanged (emotion, confidence, intensity,
valence, arousal, emotion_distribution) and the other two last-raw-label
fields unchanged, but sets the `face_emotion` field to the observation's
label; moreover the voice and behavior fuse operations can never produce a
sub-threshold observation (their confidences are at least 0.5, so their
weights are at least 0.15 and 0.1). -/
theorem subthreshold_weight_floor_amended (s : EmotionDetector) (o : Observation)
    (h : sourceWeight Source.face o.confidence < 1/10) :
    (get_analysis_results (update_face_emotion s o)).emotion =
      (get_analysis_results s).emotion ∧
    (get_analysis_results (update_face_emotion s o)).confidence =
      (get_analysis_results s).confidence ∧
    (get_analysis_results (update_face_emotion s o)).intensity =
      (get_analysis_results s).intensity ∧
    (get_analysis_results (update_face_emotion s o)).valence =
      (get_analysis_results s).valence ∧
    (get_analysis_results (update_face_emotion s o)).arousal =
      (get_analysis_results s).arousal ∧
    (get_analysis_results (update_face_emotion s o)).emotion_distribution =
      (get_analysis_results s).emotion_distribution ∧
    (get_analysis_results (update_face_emotion s o)).voice_emotion =
      (get_analysis_results s).voice_emotion ∧
    (get_analysis_results (update_face_emotion s o)).behavior_emotion =
      (get_analysis_results s).behavior_emotion ∧
    (get_analysis_results (update_face_emotion s o)).face_emotion = o.label ∧
    (∀ f : AudioFeatures,
      ¬ sourceWeight Source.voice (analyze_voice f).confidence < 1/10) ∧
    (∀ m ts te fl : ℚ,
      ¬ sourceWeight Source.behavior (analyze_behavior m ts te fl).confidence < 1/10) := by
  rw [update_face_emotion_subthreshold s o h]
  exact ⟨rfl, rfl, rfl, rfl, rfl, rfl, rfl, rfl, rfl,
    voice_weight_not_subthreshold, behavior_weight_not_subthreshold⟩

/-- Witness for C1 amended: the sub-threshold face observation with
confidence 0.1 on the fresh detector. -/
theorem subthreshold_weight_floor_amended_witness :
    (get_analysis_results (update_face_emotion (initDetector 10)
        { label := "happy", confidence := 1/10, valence := 1/2, arousal := 1/2 })).emotion =
      (get_analysis_results (initDetector 10)).emotion ∧
    (get_analysis_results (update_face_emotion (initDetector 10)
        { label := "happy", confidence := 1/10, valence := 1/2, arousal := 1/2 })).confidence =
      (get_analysis_results (initDetector 10)).confidence ∧
    (get_analysis_results (update_face_emotion (initDetector 10)
        { label := "happy", confidence := 1/10, valence := 1/2, arousal := 1/2 })).intensity =
      (get_analysis_results (initDetector 10)).intensity ∧
    (get_analysis_results (update_face_emotion (initDetector 10)
        { label := "happy", confidence := 1/10, valence := 1/2, arousal := 1/2 })).valence =
      (get_analysis_results (initDetector 10)).valence ∧
    (get_analysis_results (update_face_emotion (initDetector 10)
        { label := "happy", confidence := 1/10, valence := 1/2, arousal := 1/2 })).arousal =
      (get_analysis_results (initDetector 10)).arousal ∧
    (get_analysis_results (update_face_emotion (initDetector 10)
        { label := "happy", confidence := 1/10, valence := 1/2, arousal := 1/2 })).emotion_distribution =
      (get_analysis_results (initDetector 10)).emotion_distribution ∧
    (get_analysis_results (update_face_emotion (initDetector 10)
        { label := "happy", confidence := 1/10, valence := 1/2, arousal := 1/2 })).voice_emotion =
      (get_analysis_results (initDetector 10)).voice_emotion ∧
    (get_analysis_results (update_face_emotion (initDetector 10)
        { label := "happy", confidence := 1/10, valence := 1/2, arousal := 1/2 })).behavior_emotion =
      (get_analysis_results (initDetector 10)).behavior_emotion ∧
    (get_analysis_results (update_face_emotion (initDetector 10)
        { label := "happy", confidence := 1/10, valence := 1/2, arousal := 1/2 })).face_emotion =
      "happy" ∧
    (∀ f : AudioFeatures,
      ¬ sourceWeight Source.voice (analyze_voice f).confidence < 1/10) ∧
    (∀ m ts te fl : ℚ,
      ¬ sourceWeight Source.behavior (analyze_behavior m ts te fl).confidence < 1/10) :=
  subthreshold_weight_floor_amended (initDetector 10)
    { label := "happy", confidence := 1/10, valence := 1/2, arousal := 1/2 }
    (by norm_num [sourceWeight])

/-- C3: for every sequence of fold operations from a state satisfying the
history invariant, the three rolling sequences stay no longer than the
capacity and keep equal lengths, and the capacity itself never changes. -/
theorem rolling_history_invariant (ops : List FoldOp) (s : EmotionDetector)
    (hs : goodState s) :
    goodState (runFolds s ops) ∧
    (runFolds s ops).emotion_memory_size = s.emotion_memory_size := by
  induction ops generalizing s with
  | nil => exact ⟨hs, rfl⟩
  | cons op rest ih =>
    obtain ⟨hg, hm⟩ := ih (applyFold s op) (goodState_applyFold s op hs)
    exact ⟨hg, hm.trans (memory_size_applyFold s op)⟩

/-- Witness for C3: two folds on the fresh default-capacity detector keep the
invariant. -/
theorem rolling_history_invariant_witness :
    goodState (runFolds (initDetector 10)
      [FoldOp.voice { volume := 0, pitch := 0, is_speaking := false },
       FoldOp.behavior 1 400 0 1]) ∧
    (runFolds (initDetector 10)
      [FoldOp.voice { volume := 0, pitch := 0, is_speaking := false },
       FoldOp.behavior 1 400 0 1]).emotion_memory_size = 10 :=
  rolling_history_invariant
    [FoldOp.voice { volume := 0, pitch := 0, is_speaking := false },
     FoldOp.behavior 1 400 0 1]
    (initDetector 10) ⟨by decide, rfl, rfl⟩

/-- C9: a voice fuse with `is_speaking = false` yields the neutral observation
with confidence 0.5 and zero valence/arousal; its weight `0.3*0.5 = 0.15` is
not below the 0.1 floor, so (for any capacity ≥ 1) the observation is appended
to all three rolling histories rather than skipped. -/
theorem not_speaking_neutral_still_folded (s : EmotionDetector) (f : AudioFeatures)
    (hf : f.is_speaking = false) (hcap : 1 ≤ s.emotion_memory_size) :
    analyze_voice f =
      { label := "neutral", confidence := 1/2, valence := 0, arousal := 0 } ∧
    sourceWeight Source.voice (1/2) = 3/20 ∧
    ¬ sourceWeight Source.voice (1/2) < 1/10 ∧
    update_voice_emotion s f =
      { s with
        voice_emotion := "neutral"
        emotion_history := dequeAppend s.emotion_memory_size s.emotion_history "neutral"
        valence_history := dequeAppend s.emotion_memory_size s.valence_history 0
        arousal_history := dequeAppend s.emotion_memory_size s.arousal_history 0 } ∧
    (update_voice_emotion s f).emotion_history.getLast? = some "neutral" ∧
    (update_voice_emotion s f).valence_history.getLast? = some 0 ∧
    (update_voice_emotion s f).arousal_history.getLast? = some 0 := by
  have ho : analyze_voice f =
      { label := "neutral", confidence := 1/2, valence := 0, arousal := 0 } := by
    simp only [analyze_voice, hf, Bool.false_eq_true, if_false]
  have hupd : update_voice_emotion s f =
      { s with
        voice_emotion := "neutral"
        emotion_history := dequeAppend s.emotion_memory_size s.emotion_history "neutral"
        valence_history := dequeAppend s.emotion_memory_size s.valence_history 0
        arousal_history := dequeAppend s.emotion_memory_size s.arousal_history 0 } := by
    simp only [update_voice_emotion, ho, integrate_emotions]
    rw [if_neg (by norm_num [sourceWeight])]
  refine ⟨ho, by norm_num [sourceWeight], by norm_num [sourceWeight], hupd, ?_, ?_, ?_⟩ <;>
    rw [hupd] <;> exact getLast?_dequeAppend _ _ _ hcap

/-- Witness for C9: the not-speaking fold on the fresh detector appends the
neutral observation. -/
theorem not_speaking_neutral_still_folded_witness :
    analyze_voice { volume := 9/10, pitch := 400, is_speaking := false } =
      { label := "neutral", confidence := 1/2, valence := 0, arousal := 0 } ∧
    sourceWeight Source.voice (1/2) = 3/20 ∧
    ¬ sourceWeight Source.voice (1/2) < 1/10 ∧
    update_voice_emotion (initDetector 10)
        { volume := 9/10, pitch := 400, is_speaking := false } =
      { initDetector 10 with
        voice_emotion := "neutral"
        emotion_history := dequeAppend 10 [] "neutral"
        valence_history := dequeAppend 10 [] 0
        arousal_history := dequeAppend 10 [] 0 } ∧
    (update_voice_emotion (initDetector 10)
      { volume := 9/10, pitch := 400, is_speaking := false }).emotion_history.getLast? =
        some "neutral" ∧
    (update_voice_emotion (initDetector 10)
      { volume := 9/10, pitch := 400, is_speaking := false }).valence_history.getLast? =
        some 0 ∧
    (update_voice_emotion (initDetector 10)
      { volume := 9/10, pitch := 400, is_speaking := false }).arousal_history.getLast? =
        some 0 :=
  not_speaking_neutral_still_folded (initDetector 10)
    { volume := 9/10, pitch := 400, is_speaking := false } rfl (by decide)

/-! ## Characterization of `get_analysis_results` (spec-side notions) -/

/-- Number of occurrences of a label in a history. -/
def countLabel : List String → String → ℕ
  | [], _ => 0
  | e :: rest, l => (if e = l then 1 else 0) + countLabel rest l

/-- Index of the first occurrence of a label in a history
(length of the list when absent). -/
def firstIdx : List String → String → ℕ
  | [], _ => 0
  | e :: rest, l => if e = l then 0 else firstIdx rest l + 1

/-- The keys of an association list, in order. -/
def countsKeys : List (String × ℕ) → List String
  | [] => []
  | (k, _) :: rest => k :: countsKeys rest

/-- Insert a key at the end unless already present (dict key creation). -/
def keyInsert (ks : List String) (e : String) : List String :=
  if e ∈ ks then ks else ks ++ [e]

/-- The distinct labels of a history in order of first occurrence. -/
def firstKeys (h : List String) : List String :=
  h.foldl keyInsert []

theorem countLabel_append (h : List String) (e l : String) :
    countLabel (h ++ [e]) l = countLabel h l + (if e = l then 1 else 0) := by
  induction h with
  | nil => simp [countLabel]
  | cons a t ih => simp [countLabel, ih, Nat.add_assoc]

theorem countLabel_eq_zero (h : List String) (l : String) (hl : l ∉ h) :
    countLabel h l = 0 := by
  induction h with
  | nil => rfl
  | cons a t ih =>
    have ha : a ≠ l := fun hh => hl (hh ▸ List.mem_cons_self a t)
    have ht : l ∉ t := fun hh => hl (List.mem_cons_of_mem a hh)
    simp [countLabel, ha, ih ht]

theorem firstIdx_concat_of_mem (h : List String) (e l : String) (hl : l ∈ h) :
    firstIdx (h ++ [e]) l = firstIdx h l := by
  induction h with
  | nil => cases hl
  | cons a t ih =>
    by_cases hal : a = l
    · simp [firstIdx, hal]
    · have ht : l ∈ t := by
        rcases List.mem_cons.mp hl with hh | hh
        · exact absurd hh.symm hal
        · exact hh
      simp [firstIdx, hal, ih ht]

theorem firstIdx_lt_length_of_mem (h : List String) (l : String) (hl : l ∈ h) :
    firstIdx h l < h.length := by
  induction h with
  | nil => cases hl
  | cons a t ih =>
    by_cases hal : a = l
    · simp [firstIdx, hal]
    · have ht : l ∈ t := by
        rcases List.mem_cons.mp hl with hh | hh
        · exact absurd hh.symm hal
        · exact hh
      simp only [firstIdx, if_neg hal, List.length_cons]
      exact Nat.succ_lt_succ (ih ht)

theorem firstIdx_concat_self (h : List String) (e : String) (he : e ∉ h) :
    firstIdx (h ++ [e]) e = h.length := by
  induction h with
  | nil => simp [firstIdx]
  | cons a t ih =>
    have ha : a ≠ e := fun hh => he (hh ▸ List.mem_cons_self a t)
    have ht : e ∉ t := fun hh => he (List.mem_cons_of_mem a hh)
    simp [firstIdx, ha, ih ht]

theorem lookupCount_bumpCount_self (C : List (String × ℕ)) (e : String) :
    lookupCount (bumpCount C e) e = some ((lookupCount C e).getD 0 + 1) := by
  induction C with
  | nil => simp [bumpCount, lookupCount]
  | cons kv rest ih =>
    obtain ⟨k, n⟩ := kv
    by_cases hk : k = e
    · subst hk; simp [bumpCount, lookupCount]
    · simp [bumpCount, lookupCount, hk, ih]

theorem lookupCount_bumpCount_ne (C : List (String × ℕ)) (e l : String)
    (hl : l ≠ e) : lookupCount (bumpCount C e) l = lookupCount C l := by
  induction C with
  | nil => simp [bumpCount, lookupCount, Ne.symm hl]
  | cons kv rest ih =>
    obtain ⟨k, n⟩ := kv
    by_cases hk : k = e
    · subst hk
      have hkl : k ≠ l := fun hh => hl hh.symm
      simp [bumpCount, lookupCount, hkl]
    · by_cases hkl : k = l
      · subst hkl; simp [bumpCount, lookupCount, hk]
      · simp [bumpCount, lookupCount, hk, hkl, ih]

theorem countsKeys_bumpCount (C : List (String × ℕ)) (e : String) :
    countsKeys (bumpCount C e) = keyInsert (countsKeys C) e := by
  induction C with
  | nil => simp [bumpCount, countsKeys, keyInsert]
  | cons kv rest ih =>
    obtain ⟨k, n⟩ := kv
    by_cases hk : k = e
    · subst hk; simp [bumpCount, countsKeys, keyInsert]
    · have hek : e ≠ k := fun hh => hk hh.symm
      simp only [bumpCount, if_neg hk, countsKeys, ih, keyInsert]
      by_cases hmem : e ∈ countsKeys rest
      · simp [hmem, hek]
      · simp [hmem, hek]

theorem emotionCounts_concat (h : List String) (e : String) :
    emotionCounts (h ++ [e]) = bumpCount (emotionCounts h) e := by
  simp [emotionCounts, List.foldl_append]

theorem firstKeys_concat (h : List String) (e : String) :
    firstKeys (h ++ [e]) = keyInsert (firstKeys h) e := by
  simp [firstKeys, List.foldl_append]

theorem lookupCount_emotionCounts (h : List String) (l : String) :
    lookupCount (emotionCounts h) l =
      if l ∈ h then some (countLabel h l) else none := by
  induction h using List.reverseRecOn with
  | nil => simp [emotionCounts, lookupCount]
  | append_singleton t e ih =>
    rw [emotionCounts_concat]
    by_cases hle : l = e
    · subst hle
      rw [lookupCount_bumpCount_self, ih, countLabel_append]
      by_cases hmem : l ∈ t
      · simp [hmem]
      · simp [hmem, countLabel_eq_zero t l hmem]
    · have hel : e ≠ l := fun hh => hle hh.symm
      rw [lookupCount_bumpCount_ne _ _ _ hle, ih, countLabel_append]
      by_cases hmem : l ∈ t
      · simp [hmem, hel, hle]
      · simp [hmem, hel, hle]

theorem lookupCount_isSome (C : List (String × ℕ)) (l : String) :
    (lookupCount C l).isSome = true ↔ l ∈ countsKeys C := by
  induction C with
  | nil => simp [lookupCount, countsKeys]
  | cons kv rest ih =>
    obtain ⟨k, n⟩ := kv
    by_cases hk : k = l
    · subst hk; simp [lookupCount, countsKeys]
    · have hlk : l ≠ k := fun hh => hk hh.symm
      simp [lookupCount, countsKeys, hk, hlk, ih]

theorem mem_countsKeys_emotionCounts (h : List String) (l : String) :
    l ∈ countsKeys (emotionCounts h) ↔ l ∈ h := by
  rw [← lookupCount_isSome, lookupCount_emotionCounts]
  by_cases hm : l ∈ h <;> simp [hm]

theorem countsKeys_emotionCounts_eq_firstKeys (h : List String) :
    countsKeys (emotionCounts h) = firstKeys h := by
  induction h using List.reverseRecOn with
  | nil => simp [emotionCounts, countsKeys, firstKeys]
  | append_singleton t e ih =>
    rw [emotionCounts_concat, countsKeys_bumpCount, ih, firstKeys_concat]

theorem mem_firstKeys (h : List String) (l : String) :
    l ∈ firstKeys h ↔ l ∈ h := by
  rw [← countsKeys_emotionCounts_eq_firstKeys]
  exact mem_countsKeys_emotionCounts h l

theorem firstKeys_pairwise (h : List String) :
    List.Pairwise (fun a b => firstIdx h a < firstIdx h b) (firstKeys h) := by
  induction h using List.reverseRecOn with
  | nil => exact List.Pairwise.nil
  | append_singleton t e ih =>
    rw [firstKeys_concat, keyInsert]
    by_cases he : e ∈ firstKeys t
    · rw [if_pos he]
      refine ih.imp_of_mem ?_
      intro a b ha hb hab
      rw [firstIdx_concat_of_mem t e a ((mem_firstKeys t a).mp ha),
          firstIdx_concat_of_mem t e b ((mem_firstKeys t b).mp hb)]
      exact hab
    · rw [if_neg he]
      have he' : e ∉ t := fun hh => he ((mem_firstKeys t e).mpr hh)
      rw [List.pairwise_append]
      refine ⟨?_, List.pairwise_singleton _ _, ?_⟩
      · refine ih.imp_of_mem ?_
        intro a b ha hb hab
        rw [firstIdx_concat_of_mem t e a ((mem_firstKeys t a).mp ha),
            firstIdx_concat_of_mem t e b ((mem_firstKeys t b).mp hb)]
        exact hab
      · intro a ha b hb
        rw [List.mem_singleton] at hb
        subst hb
        have ha' : a ∈ t := (mem_firstKeys t a).mp ha
        rw [firstIdx_concat_of_mem t b a ha', firstIdx_concat_self t b he']
        exact firstIdx_lt_length_of_mem t a ha'

theorem countsKeys_nodup (h : List String) :
    (countsKeys (emotionCounts h)).Nodup := by
  rw [countsKeys_emotionCounts_eq_firstKeys]
  exact (firstKeys_pairwise h).imp fun hab heq => absurd (heq ▸ hab) (lt_irrefl _)

theorem key_mem_countsKeys (C : List (String × ℕ)) (k : String) (n : ℕ)
    (h : (k, n) ∈ C) : k ∈ countsKeys C := by
  induction C with
  | nil => cases h
  | cons kv rest ih =>
    obtain ⟨a, m⟩ := kv
    rcases List.mem_cons.mp h with heq | hmem
    · injection heq with h1 h2
      subst h1
      exact List.mem_cons_self _ _
    · exact List.mem_cons_of_mem _ (ih hmem)

theorem lookupCount_eq_of_mem (C : List (String × ℕ)) (k : String) (n : ℕ)
    (hnd : (countsKeys C).Nodup) (hmem : (k, n) ∈ C) :
    lookupCount C k = some n := by
  induction C with
  | nil => cases hmem
  | cons kv rest ih =>
    obtain ⟨a, m⟩ := kv
    rw [show countsKeys ((a, m) :: rest) = a :: countsKeys rest from rfl,
        List.nodup_cons] at hnd
    rcases List.mem_cons.mp hmem with heq | hmem'
    · injection heq with h1 h2
      subst h1; subst h2
      simp [lookupCount]
    · have hk : a ≠ k := by
        intro hh
        subst hh
        exact hnd.1 (key_mem_countsKeys rest a n hmem')
      simp only [lookupCount, if_neg hk]
      exact ih hnd.2 hmem'

theorem mem_of_lookupCount_eq (C : List (String × ℕ)) (k : String) (n : ℕ)
    (h : lookupCount C k = some n) : (k, n) ∈ C := by
  induction C with
  | nil => cases h
  | cons kv rest ih =>
    obtain ⟨a, m⟩ := kv
    by_cases hk : a = k
    · subst hk
      have hmn : m = n := by simpa [lookupCount] using h
      subst hmn
      exact List.mem_cons_self _ _
    · simp only [lookupCount, if_neg hk] at h
      exact List.mem_cons_of_mem _ (ih h)

theorem foldl_maxStep_spec (l : List (String × ℕ)) (b : String × ℕ) :
    ∃ s₁ s₂, b :: l = s₁ ++ (l.foldl maxStep b) :: s₂ ∧
      (∀ v ∈ s₁, v.2 < (l.foldl maxStep b).2) ∧
      (∀ v ∈ s₂, v.2 ≤ (l.foldl maxStep b).2) := by
  induction l generalizing b with
  | nil => exact ⟨[], [], rfl, by simp, by simp⟩
  | cons v t ih =>
    rw [List.foldl_cons]
    rcases le_or_lt v.2 b.2 with hv | hv
    · have hstep : maxStep b v = b := by simp [maxStep, not_lt.mpr hv]
      rw [hstep]
      obtain ⟨s₁, s₂, heq, hlt, hle⟩ := ih b
      generalize hr : t.foldl maxStep b = r at heq hlt hle ⊢
      cases s₁ with
      | nil =>
        simp only [List.nil_append] at heq
        injection heq with h1 h2
        refine ⟨[], v :: s₂, ?_, by simp, ?_⟩
        · rw [List.nil_append, ← h1, h2]
        · intro x hx
          rcases List.mem_cons.mp hx with rfl | hx'
          · rw [← h1]; exact hv
          · exact hle x hx'
      | cons w s₁' =>
        simp only [List.cons_append] at heq
        injection heq with h1 h2
        have hbr : b.2 < r.2 := by
          rw [h1]; exact hlt w (List.mem_cons_self _ _)
        refine ⟨b :: v :: s₁', s₂, ?_, ?_, hle⟩
        · rw [h2]; simp
        · intro x hx
          rcases List.mem_cons.mp hx with rfl | hx'
          · exact hbr
          · rcases List.mem_cons.mp hx' with rfl | hx''
            · exact lt_of_le_of_lt hv hbr
            · exact hlt x (List.mem_cons_of_mem _ hx'')
    · have hstep : maxStep b v = v := by simp [maxStep, hv]
      rw [hstep]
      obtain ⟨s₁, s₂, heq, hlt, hle⟩ := ih v
      generalize hr : t.foldl maxStep v = r at heq hlt hle ⊢
      cases s₁ with
      | nil =>
        simp only [List.nil_append] at heq
        injection heq with h1 h2
        refine ⟨[b], s₂, ?_, ?_, hle⟩
        · rw [List.singleton_append, ← h1, h2]
        · intro x hx
          rw [List.mem_singleton] at hx
          subst hx
          rw [← h1]; exact hv
      | cons w s₁' =>
        simp only [List.cons_append] at heq
        injection heq with h1 h2
        have hvr : v.2 < r.2 := by
          rw [h1]; exact hlt w (List.mem_cons_self _ _)
        refine ⟨b :: w :: s₁', s₂, ?_, ?_, hle⟩
        · rw [h1, h2]; simp
        · intro x hx
          rcases List.mem_cons.mp hx with rfl | hx'
          · exact lt_trans hv hvr
          · exact hlt x hx'

theorem countsKeys_append (A B : List (String × ℕ)) :
    countsKeys (A ++ B) = countsKeys A ++ countsKeys B := by
  induction A with
  | nil => rfl
  | cons kv rest ih =>
    obtain ⟨k, n⟩ := kv
    simp [countsKeys, ih]

/-- C4: `get_analysis_results` is a pure function of the current state whose
fields satisfy: the raw labels pass through; valence/arousal are the means of
their histories (0 when empty); intensity = |valence| * arousal; the
distribution maps exactly the labels occurring in the history to their
occurrence counts; an empty history yields "neutral"/0/empty distribution;
a nonempty history yields a label occurring in the history with maximal
count, with ties broken in favour of the earliest first occurrence, and
confidence = winner count / history length. -/
theorem fused_snapshot_spec (s : EmotionDetector) :
    (get_analysis_results s).face_emotion = s.face_emotion ∧
    (get_analysis_results s).voice_emotion = s.voice_emotion ∧
    (get_analysis_results s).behavior_emotion = s.behavior_emotion ∧
    (s.valence_history = [] → (get_analysis_results s).valence = 0) ∧
    (s.valence_history ≠ [] →
      (get_analysis_results s).valence =
        s.valence_history.sum / s.valence_history.length) ∧
    (s.arousal_history = [] → (get_analysis_results s).arousal = 0) ∧
    (s.arousal_history ≠ [] →
      (get_analysis_results s).arousal =
        s.arousal_history.sum / s.arousal_history.length) ∧
    (get_analysis_results s).intensity =
      |(get_analysis_results s).valence| * (get_analysis_results s).arousal ∧
    (∀ l, lookupCount (get_analysis_results s).emotion_distribution l =
      if l ∈ s.emotion_history then some (countLabel s.emotion_history l)
      else none) ∧
    (s.emotion_history = [] →
      (get_analysis_results s).emotion = "neutral" ∧
      (get_analysis_results s).confidence = 0 ∧
      (get_analysis_results s).emotion_distribution = []) ∧
    (s.emotion_history ≠ [] →
      (get_analysis_results s).emotion ∈ s.emotion_history ∧
      (get_analysis_results s).confidence =
        (countLabel s.emotion_history (get_analysis_results s).emotion : ℚ) /
          s.emotion_history.length ∧
      (∀ l ∈ s.emotion_history,
        countLabel s.emotion_history l ≤
          countLabel s.emotion_history (get_analysis_results s).emotion) ∧
      (∀ l ∈ s.emotion_history, l ≠ (get_analysis_results s).emotion →
        countLabel s.emotion_history l =
          countLabel s.emotion_history (get_analysis_results s).emotion →
        firstIdx s.emotion_history (get_analysis_results s).emotion <
          firstIdx s.emotion_history l)) := by
  refine ⟨rfl, rfl, rfl, ?_, ?_, ?_, ?_, rfl, ?_, ?_, ?_⟩
  · intro h
    simp only [get_analysis_results]
    rw [if_pos h]
  · intro h
    simp only [get_analysis_results]
    rw [if_neg h]
  · intro h
    simp only [get_analysis_results]
    rw [if_pos h]
  · intro h
    simp only [get_analysis_results]
    rw [if_neg h]
  · intro l
    have hd : (get_analysis_results s).emotion_distribution =
        emotionCounts s.emotion_history := rfl
    rw [hd]
    exact lookupCount_emotionCounts _ _
  · intro h
    refine ⟨?_, ?_, ?_⟩ <;> simp [get_analysis_results, h, emotionCounts, firstMax]
  · intro h
    have hCne : emotionCounts s.emotion_history ≠ [] := by
      intro hC0
      obtain ⟨a, t, hat⟩ := List.exists_cons_of_ne_nil h
      have ha : a ∈ countsKeys (emotionCounts s.emotion_history) :=
        (mem_countsKeys_emotionCounts _ a).mpr (hat ▸ List.mem_cons_self a t)
      rw [hC0] at ha
      cases ha
    obtain ⟨c, cs, hC⟩ := List.exists_cons_of_ne_nil hCne
    rcases hfm : cs.foldl maxStep c with ⟨k, n⟩
    have hem : (get_analysis_results s).emotion = k := by
      simp only [get_analysis_results, hC, firstMax, hfm]
    have hconf : (get_analysis_results s).confidence =
        (n : ℚ) / s.emotion_history.length := by
      simp only [get_analysis_results, hC, firstMax, hfm]
    obtain ⟨s₁, s₂, heq, hlt, hle⟩ := foldl_maxStep_spec cs c
    rw [hfm] at heq hlt hle
    have hCeq : emotionCounts s.emotion_history = s₁ ++ (k, n) :: s₂ :=
      hC.trans heq
    have hkC : (k, n) ∈ emotionCounts s.emotion_history := by
      rw [hCeq]
      exact List.mem_append.mpr (Or.inr (List.mem_cons_self _ _))
    have hkHist : k ∈ s.emotion_history :=
      (mem_countsKeys_emotionCounts _ k).mp (key_mem_countsKeys _ _ _ hkC)
    have hnd := countsKeys_nodup s.emotion_history
    have hlook : lookupCount (emotionCounts s.emotion_history) k = some n :=
      lookupCount_eq_of_mem _ _ _ hnd hkC
    have hn : n = countLabel s.emotion_history k := by
      have h2 : lookupCount (emotionCounts s.emotion_history) k =
          some (countLabel s.emotion_history k) := by
        rw [lookupCount_emotionCounts, if_pos hkHist]
      rw [hlook] at h2
      injection h2
    refine ⟨?_, ?_, ?_, ?_⟩
    · rw [hem]; exact hkHist
    · rw [hconf, hem, ← hn]
    · intro l hl
      rw [hem, ← hn]
      have hlookl : lookupCount (emotionCounts s.emotion_history) l =
          some (countLabel s.emotion_history l) := by
        rw [lookupCount_emotionCounts, if_pos hl]
      have hlC := mem_of_lookupCount_eq _ _ _ hlookl
      rw [hCeq] at hlC
      rcases List.mem_append.mp hlC with h1 | h2
      · exact le_of_lt (hlt _ h1)
      · rcases List.mem_cons.mp h2 with heq2 | h3
        · injection heq2 with ha hb
          exact le_of_eq hb
        · exact hle _ h3
    · intro l hl hlne hcnt
      rw [hem] at hlne hcnt ⊢
      have hlookl : lookupCount (emotionCounts s.emotion_history) l =
          some (countLabel s.emotion_history l) := by
        rw [lookupCount_emotionCounts, if_pos hl]
      have hlC := mem_of_lookupCount_eq _ _ _ hlookl
      rw [hCeq] at hlC
      rcases List.mem_append.mp hlC with h1 | h2
      · have hcontra := hlt _ h1
        rw [hcnt, ← hn] at hcontra
        exact absurd hcontra (lt_irrefl n)
      · rcases List.mem_cons.mp h2 with heq2 | h3
        · injection heq2 with ha hb
          exact absurd ha hlne
        · have hpw := firstKeys_pairwise s.emotion_history
          rw [← countsKeys_emotionCounts_eq_firstKeys, hCeq,
              countsKeys_append] at hpw
          simp only [countsKeys] at hpw
          have hk2 := (List.pairwise_append.mp hpw).2.1
          have hrel := (List.pairwise_cons.mp hk2).1
          exact hrel l (key_mem_countsKeys _ _ _ h3)

/-- A concrete detector state with a nonempty rolling history. -/
def sampleDetector : EmotionDetector :=
  { emotion_memory_size := 10
    emotion_history := ["happy", "sad", "happy"]
    valence_history := [1/2, -(1/2), 1/2]
    arousal_history := [1/2, 1/4, 1/2]
    face_emotion := "happy"
    voice_emotion := "neutral"
    behavior_emotion := "neutral" }

/-- Witness for C4: on a concrete nonempty history, the fused label occurs in
the history, confidence is its count over the history length, and valence is
the mean of the valence samples. -/
theorem fused_snapshot_spec_witness :
    (get_analysis_results sampleDetector).emotion ∈
      sampleDetector.emotion_history ∧
    (get_analysis_results sampleDetector).confidence =
      (countLabel sampleDetector.emotion_history
          (get_analysis_results sampleDetector).emotion : ℚ) /
        sampleDetector.emotion_history.length ∧
    (get_analysis_results sampleDetector).valence =
      sampleDetector.valence_history.sum /
        sampleDetector.valence_history.length := by
  obtain ⟨-, -, -, -, hval, -, -, -, -, -, hne⟩ := fused_snapshot_spec sampleDetector
  obtain ⟨hmem, hconf, -, -⟩ := hne (by decide)
  exact ⟨hmem, hconf, hval (by decide)⟩

end MoodSense
